import Mathlib

/-
Shallow embedding of pdf_pager.py (a command-line tool that merges PDFs,
stamps page numbers, and adds a two-level bookmark outline), together with
theorems settling the spec's claims about it.

External PDF libraries (PyPDF2, pdfminer, reportlab) are treated as an
opaque boundary: page counts and rotations of a document are parameters
(functions from paths / page indices), and bookmark emission is modelled as
the ordered list of addBookmark calls the program makes.
-/

namespace PdfPager

/-- Python str.split on a single-character separator, on the character
list: cut at every pipe; n pipes give n+1 fields, empty fields preserved. -/
def splitPipeChars : List Char → List (List Char)
  | [] => [[]]
  | c :: rest =>
    let groups := splitPipeChars rest
    if c = '|' then [] :: groups
    else
      match groups with
      | g :: gs => (c :: g) :: gs
      | [] => [[c]]

/-- Python val.split(.|.): splitting a string on the literal pipe character. -/
def splitFields (val : String) : List String :=
  (splitPipeChars val.data).map (fun cs => ⟨cs⟩)

/-- Python val.split(.|.)[0]: always defined, since split returns at least one field. -/
def headField (val : String) : String := (splitFields val).headI

/-- A Python runtime error relevant to the embedded fragments. -/
inductive PyError
  | indexError
deriving DecidableEq

/-- The namedtuple Bookmark(input_path, bookmark_name, parent_bookmark_name, page_number)
built by the bookmarks property. -/
structure Bookmark where
  input_path : String
  bookmark_name : String
  parent_bookmark_name : String
  page_number : Option Nat
deriving DecidableEq

/-- input_paths property: [val.split(.|.)[0] for val in self.inputs]. -/
def input_paths_of (inputs : List String) : List String := inputs.map headField

/-- The loop body of get_page_numbers: walks the input paths in argument order,
recording for each visited path the cumulative page count so far (the dict
assignment order), then advancing the counter by that path's page count.
The external page-count query (PdfFileReader.getNumPages) is the parameter pc. -/
def get_page_numbers_aux (pc : String → Nat) : List String → Nat → List (String × Nat)
  | [], _ => []
  | p :: rest, acc => (p, acc) :: get_page_numbers_aux pc rest (acc + pc p)

/-- get_page_numbers: the sequence of dict assignments page_numbers[input_path] = page_num. -/
def get_page_numbers (pc : String → Nat) (ips : List String) : List (String × Nat) :=
  get_page_numbers_aux pc ips 0

/-- Python dict semantics over a list of assignments in program order:
a later assignment to the same key overwrites an earlier one, so lookup
returns the value of the last assignment to the key, if any. -/
def dict_get : List (String × Nat) → String → Option Nat
  | [], _ => none
  | (k', v) :: rest, k =>
    match dict_get rest k with
    | some v' => some v'
    | none => if k' = k then some v else none

/-- The offset the program associates with a record: page_numbers.get(path). -/
def lookup_offset (pc : String → Nat) (ips : List String) (p : String) : Option Nat :=
  dict_get (get_page_numbers pc ips) p

/-- One element of the bookmarks list comprehension: builds
Bookmark(input_path=val.split(.|.)[0], bookmark_name=val.split(.|.)[1],
parent_bookmark_name=val.split(.|.)[2], page_number=page_numbers.get(val.split(.|.)[0])).
Indexing [1] or [2] on a split with fewer fields raises IndexError. -/
def mk_bookmark (pn : String → Option Nat) (val : String) : Except PyError Bookmark :=
  match (splitFields val)[1]?, (splitFields val)[2]? with
  | some name, some par => .ok ⟨headField val, name, par, pn (headField val)⟩
  | _, _ => .error .indexError

/-- The bookmarks list comprehension: the filter (if val.split(.|.)[0]) is
evaluated per element before the element expression, so an empty path skips
the element without evaluating the failing indexes. -/
def bookmarks_of (pn : String → Option Nat) : List String → Except PyError (List Bookmark)
  | [] => .ok []
  | v :: rest =>
    if headField v ≠ "" then
      match mk_bookmark pn v, bookmarks_of pn rest with
      | .ok b, .ok bs => .ok (b :: bs)
      | .error e, _ => .error e
      | _, .error e => .error e
    else bookmarks_of pn rest

/-- The three addBookmark call sites in add_bookmarks, kept distinct:
a parent registration (parent=None, stored in parent_bookmarks), a child
under a registered parent handle, and a top-level entry (parent=None). -/
inductive OutlineEntry
  | parentReg (title : String) (pagenum : Option Nat)
  | child (title : String) (pagenum : Option Nat) (parentTitle : String)
  | top (title : String) (pagenum : Option Nat)
deriving DecidableEq

/-- The bookmark-emission loop of add_bookmarks: for each record, if its
parent title is non-empty, register the parent on first sight (pagenum
taken from page_numbers.get(val.input_path)) and always emit a child under
it; otherwise emit a top-level entry only when the bookmark name is
non-empty. The registered argument is the key set of parent_bookmarks. -/
def add_bookmarks_entries (pn : String → Option Nat) :
    List Bookmark → List String → List OutlineEntry
  | [], _ => []
  | b :: rest, registered =>
    if b.parent_bookmark_name ≠ "" then
      if b.parent_bookmark_name ∈ registered then
        .child b.bookmark_name b.page_number b.parent_bookmark_name
          :: add_bookmarks_entries pn rest registered
      else
        .parentReg b.parent_bookmark_name (pn b.input_path)
          :: .child b.bookmark_name b.page_number b.parent_bookmark_name
          :: add_bookmarks_entries pn rest (b.parent_bookmark_name :: registered)
    else if b.bookmark_name ≠ "" then
      .top b.bookmark_name b.page_number :: add_bookmarks_entries pn rest registered
    else
      add_bookmarks_entries pn rest registered

/-- Recognizes a parent registration for the given title. -/
def isParentRegFor (t : String) : OutlineEntry → Bool
  | .parentReg u _ => u = t
  | _ => false

/-- The label text built in add_page_numbers for 0-based page page_num of
page_ct pages: txt = str(page_num + 1); if mask: txt = mask + " " + txt;
if total_pages_flag == .Y.: txt = txt + " of " + str(page_ct). -/
def compose_label (mask : String) (page_num : Nat) (page_ct : Nat)
    (total_pages_flag : String) : String :=
  let txt := toString (page_num + 1)
  let txt := if mask ≠ "" then mask ++ " " ++ txt else txt
  if total_pages_flag = "Y" then txt ++ " of " ++ toString page_ct else txt

/-- get_pdf_name: original_output_path[:4] + ._. + tag + ._. + iso_date_str() + ..pdf.. -/
def get_pdf_name (original_output_path tag today : String) : String :=
  original_output_path.take 4 ++ "_" ++ tag ++ "_" ++ today ++ ".pdf"

/-- Python string comparison: lexicographic by Unicode code point. -/
def pyStrLt : List Char → List Char → Bool
  | [], [] => false
  | [], _ :: _ => true
  | _ :: _, [] => false
  | a :: as, b :: bs => if a < b then true else if b < a then false else pyStrLt as bs

/-- Non-strict Python string comparison, on whole strings. -/
def pyStrLe (a b : String) : Bool := a = b || pyStrLt a.data b.data

/-- merge_pdfs visits sorted(input_paths): Python sorted is a stable sort by
string order (lexicographic by code point), modelled by stable insertion
sort under the same order. -/
def merge_visit_order (ips : List String) : List String :=
  List.insertionSort (fun a b => pyStrLe a b = true) ips

/-- get_page_numbers visits self.input_paths in argument order. -/
def offset_visit_order (ips : List String) : List String := ips

/-- The three step functions a Step can carry. -/
inductive Op
  | merge
  | number
  | bookmark
deriving DecidableEq

/-- The namedtuple Step(input_path, output_path, function, args); the bound
function and its non-path args are determined by op and the task fields. -/
structure Step where
  input_path : Option String
  output_path : String
  op : Op
deriving DecidableEq

/-- The PdfTask constructor fields. -/
structure PdfTask where
  inputs : List String
  output_path : String
  page_number_mask : String
  total_pages_flag : String
  append_date_flag : String
  bottom_margin : Nat
  page_numbers_flag : String
  bookmarks_flag : String
deriving DecidableEq

/-- input_paths property of the task. -/
def PdfTask.input_paths (t : PdfTask) : List String := input_paths_of t.inputs

/-- Python steps[-1]: IndexError on an empty list, else the last element. -/
def last_step : List Step → Except PyError Step
  | [] => .error .indexError
  | s :: rest =>
    match last_step rest with
    | .ok st => .ok st
    | .error _ => .ok s

/-- Python steps[-1].output_path or self.input_paths[0]: the or-fallback
fires only when output_path is falsy (the empty string); indexing [0] on an
empty input_paths list raises IndexError. -/
def step_input_path (ss : List Step) (ips : List String) : Except PyError String := do
  let last ← last_step ss
  if last.output_path ≠ "" then
    pure last.output_path
  else
    match ips.head? with
    | some p => pure p
    | none => .error .indexError

/-- The steps property: append a merge step when more than one input path,
then a numbering step when page_numbers_flag is Y, then a bookmarking step
when bookmarks_flag is Y, each reading steps[-1].output_path at build time.
today stands for iso_date_str(). -/
def PdfTask.steps (t : PdfTask) (today : String) : Except PyError (List Step) := do
  let ips := t.input_paths
  let s1 : List Step :=
    if ips.length > 1 then
      [⟨none, get_pdf_name t.output_path "merged" today, .merge⟩]
    else []
  let s2 ←
    if t.page_numbers_flag = "Y" then do
      let inp ← step_input_path s1 ips
      pure (s1 ++ [⟨some inp, get_pdf_name t.output_path "numbered" today, .number⟩])
    else pure s1
  let s3 ←
    if t.bookmarks_flag = "Y" then do
      let inp ← step_input_path s2 ips
      pure (s2 ++ [⟨some inp, get_pdf_name t.output_path "bookmarked" today, .bookmark⟩])
    else pure s2
  pure s3

/-- The path whose document add_page_numbers inspects for rotations:
get_page_rotations(input_path) is called on the numbering step's own
input_path argument. -/
def PdfTask.rotation_source_path (t : PdfTask) (today : String) :
    Except PyError (Option String) := do
  let ss ← t.steps today
  pure ((ss.find? (fun s => s.op = Op.number)).bind Step.input_path)

/-- The exceptions run_tasks can raise, in program order: a step function
failing, the final shutil.copy failing, or an os.remove of an intermediate
failing. Outcomes of the external calls are parameters: each step carries
(its function's outcome, its os.remove outcome). -/
inductive RunError
  | stepFailed
  | copyFailed
  | removeFailed
deriving DecidableEq

/-- run_tasks control flow: run every step function in order, then copy the
last output to the final path, then os.remove every intermediate; the first
failing call raises and nothing after it runs. -/
def run_tasks_result (step_outcomes : List (Bool × Bool)) (copy_ok : Bool) :
    Except RunError Unit :=
  if ¬ (step_outcomes.all (fun s => s.1)) then .error .stepFailed
  else if ¬ copy_ok then .error .copyFailed
  else if ¬ (step_outcomes.all (fun s => s.2)) then .error .removeFailed
  else .ok ()

/-- The main block: run_tasks, then os.startfile; any exception reaches the
top-level handler, is logged, and the process exits 1; otherwise exit 0. -/
def main_exit_code (step_outcomes : List (Bool × Bool)) (copy_ok startfile_ok : Bool) :
    Nat :=
  match run_tasks_result step_outcomes copy_ok with
  | .error _ => 1
  | .ok _ => if startfile_ok then 0 else 1

/-! Helper lemmas. -/

theorem get_pdf_name_ne_empty (o tag d : String) : get_pdf_name o tag d ≠ "" := by
  intro h
  have hd : (get_pdf_name o tag d).data = ("" : String).data := by rw [h]
  simp [get_pdf_name, String.data_append] at hd

theorem dict_get_aux_not_mem (pc : String → Nat) (l : List String) (acc : Nat) (p : String)
    (hp : p ∉ l) : dict_get (get_page_numbers_aux pc l acc) p = none := by
  induction l generalizing acc with
  | nil => rfl
  | cons q rest ih =>
    have hq : q ≠ p := fun h => hp (h ▸ List.mem_cons_self q rest)
    have hrest : p ∉ rest := fun h => hp (List.mem_cons_of_mem q h)
    simp [get_page_numbers_aux, dict_get, ih _ hrest, hq]

theorem get_page_numbers_aux_append (pc : String → Nat) (l₁ l₂ : List String) :
    ∀ acc, get_page_numbers_aux pc (l₁ ++ l₂) acc
      = get_page_numbers_aux pc l₁ acc
        ++ get_page_numbers_aux pc l₂ (acc + (l₁.map pc).sum) := by
  induction l₁ with
  | nil => intro acc; simp [get_page_numbers_aux]
  | cons p rest ih =>
    intro acc
    simp [get_page_numbers_aux, ih, Nat.add_assoc]

theorem dict_get_append (e₁ e₂ : List (String × Nat)) (k : String) :
    dict_get (e₁ ++ e₂) k
      = match dict_get e₂ k with
        | some v => some v
        | none => dict_get e₁ k := by
  induction e₁ with
  | nil =>
    rw [List.nil_append]
    cases h : dict_get e₂ k <;> simp [dict_get, h]
  | cons kv rest ih =>
    obtain ⟨k', v⟩ := kv
    show dict_get ((k', v) :: (rest ++ e₂)) k = _
    simp only [dict_get, ih]
    cases dict_get e₂ k <;> cases dict_get rest k <;> simp

theorem aux_lookup_nodup (pc : String → Nat) (l : List String) (hnd : l.Nodup) :
    ∀ acc k, (h : k < l.length) →
      dict_get (get_page_numbers_aux pc l acc) l[k]
        = some (acc + ((l.take k).map pc).sum) := by
  induction l with
  | nil => intro acc k h; simp at h
  | cons p rest ih =>
    intro acc k h
    rcases List.nodup_cons.mp hnd with ⟨hp, hrest⟩
    cases k with
    | zero =>
      show dict_get ((p, acc) :: get_page_numbers_aux pc rest (acc + pc p)) p = _
      simp [dict_get, dict_get_aux_not_mem pc rest (acc + pc p) p hp]
    | succ j =>
      have hj : j < rest.length := by simpa using h
      rw [List.getElem_cons_succ]
      show dict_get ((p, acc) :: get_page_numbers_aux pc rest (acc + pc p)) rest[j] = _
      simp only [dict_get, ih hrest (acc + pc p) j hj]
      simp [Nat.add_assoc]

/-! Claim theorems. -/

/-- C1 counterexample: with the same path listed twice (each occurrence
having page count 2), the offset table sends both occurrences of path "a"
to offset 2, so the first record's offset is not 0 = the sum of the page
counts before it, and the two occurrences do not receive distinct offsets. -/
theorem claim_C1_counterexample :
    lookup_offset (fun _ => 2) ["a", "a"] "a" = some 2 ∧
    lookup_offset (fun _ => 2) ["a", "a"] "a" ≠ some 0 :=
  ⟨rfl, by decide⟩

/-- C1 amended: when the input paths are pairwise distinct, the k-th record
is assigned offset c1 + ... + c_(k-1) (so the first record gets 0); when a
path occurs more than once, all its occurrences share the single offset of
the last occurrence (the sum of the page counts of all records before that
last occurrence), instead of one distinct offset per occurrence. -/
theorem claim_C1_offsets (pc : String → Nat) (ips : List String) :
    (ips.Nodup → ∀ k, (h : k < ips.length) →
      lookup_offset pc ips ips[k] = some (((ips.take k).map pc).sum)) ∧
    (∀ l₁ p l₂, ips = l₁ ++ p :: l₂ → p ∉ l₂ →
      lookup_offset pc ips p = some ((l₁.map pc).sum)) := by
  constructor
  · intro hnd k h
    have := aux_lookup_nodup pc ips hnd 0 k h
    simpa [lookup_offset, get_page_numbers] using this
  · intro l₁ p l₂ hips hp
    subst hips
    unfold lookup_offset get_page_numbers
    rw [get_page_numbers_aux_append, dict_get_append]
    simp [get_page_numbers_aux, dict_get, dict_get_aux_not_mem pc l₂ _ p hp]

/-- C1 witness: the amended claim at distinct paths "a" (2 pages) and "b"
(3 pages), record 2 getting offset 2. -/
theorem claim_C1_offsets_witness :
    (["a", "b"] : List String).Nodup ∧ 1 < (["a", "b"] : List String).length ∧
    lookup_offset (fun p => if p = "a" then 2 else 3) ["a", "b"] "b" = some 2 :=
  ⟨by decide, by decide,
    (claim_C1_offsets (fun p => if p = "a" then 2 else 3) ["a", "b"]).1
      (by decide) 1 (by decide)⟩

/-- C3: the composed page label is (mask + " " if mask non-empty else "")
+ str(i) + (" of " + str(N) if showTotal else ""), where i = page_num + 1 is
the 1-based page index; in particular mask "Page", i 3, N 7, showTotal Y
yields exactly "Page 3 of 7", and mask "", showTotal N, i 1 yields "1". -/
theorem claim_C3_page_label :
    (∀ (mask : String) (pn N : Nat) (flag : String),
      compose_label mask pn N flag =
        (if mask ≠ "" then mask ++ " " else "") ++ toString (pn + 1) ++
          (if flag = "Y" then " of " ++ toString N else "")) ∧
    compose_label "Page" 2 7 "Y" = "Page 3 of 7" ∧
    (∀ N, compose_label "" 0 N "N" = "1") := by
  refine ⟨?_, by decide, fun N => rfl⟩
  intro mask pn N flag
  unfold compose_label
  by_cases hm : mask = "" <;> by_cases hf : flag = "Y" <;>
    simp [hm, hf, String.append_assoc, String.empty_append]

/-- C10: the intermediate name is the first four characters of the output
path, then an underscore, the step tag, an underscore, the date, and ".pdf";
it depends on the output path only through those four characters. -/
theorem claim_C10_intermediate_name :
    (∀ o tag d, get_pdf_name o tag d =
        o.take 4 ++ "_" ++ tag ++ "_" ++ d ++ ".pdf") ∧
    (∀ o₁ o₂ tag d, o₁.take 4 = o₂.take 4 →
        get_pdf_name o₁ tag d = get_pdf_name o₂ tag d) := by
  refine ⟨fun o tag d => rfl, fun o₁ o₂ tag d h => ?_⟩
  unfold get_pdf_name
  rw [h]

/-- C10 witness: two distinct output paths sharing their first four
characters yield the same intermediate name. -/
theorem claim_C10_intermediate_name_witness :
    ("abcd_x.pdf" : String).take 4 = ("abcd_y.pdf" : String).take 4 ∧
    get_pdf_name "abcd_x.pdf" "merged" "2026-10-12"
      = get_pdf_name "abcd_y.pdf" "merged" "2026-10-12" :=
  ⟨by decide,
    claim_C10_intermediate_name.2 "abcd_x.pdf" "abcd_y.pdf" "merged" "2026-10-12"
      (by decide)⟩

/-- C2: at input paths ["b.pdf", "a.pdf"], merge_pdfs visits the inputs in
sorted-by-path order while get_page_numbers visits them in argument order,
so the two components do not use one canonical visitation order. -/
theorem claim_C2_order_mismatch :
    merge_visit_order ["b.pdf", "a.pdf"] = ["a.pdf", "b.pdf"] ∧
    offset_visit_order ["b.pdf", "a.pdf"] = ["b.pdf", "a.pdf"] ∧
    merge_visit_order ["b.pdf", "a.pdf"] ≠ offset_visit_order ["b.pdf", "a.pdf"] :=
  ⟨by decide, rfl, by decide⟩

/-- C6: with a single input and page numbering enabled, building the step
list raises IndexError (steps[-1] is read on a still-empty step list)
instead of succeeding with the sole input as the numbering step's input. -/
theorem claim_C6_single_input_steps_crash :
    PdfTask.steps ⟨["a.pdf"], "output.pdf", "", "Y", "Y", 10, "Y", "Y"⟩ "2026-10-12"
      = .error .indexError := by rfl

/-- C8 counterexample: one step whose function succeeds and whose cleanup
os.remove fails, with the final copy succeeding, exits with code 1, not 0. -/
theorem claim_C8_counterexample :
    ([((true : Bool), (false : Bool))].all (fun o => o.1) = true) ∧
    main_exit_code [(true, false)] true true = 1 :=
  ⟨by decide, by decide⟩

/-- C8 amended: when every step function succeeds and the final copy
succeeds but some intermediate deletion fails, the exception propagates to
the top-level handler and the process exits 1: cleanup failure is fatal and
masks the prior success. -/
theorem claim_C8_cleanup_failure_fatal (outcomes : List (Bool × Bool)) (s : Bool)
    (hsteps : outcomes.all (fun o => o.1) = true)
    (hremove : outcomes.all (fun o => o.2) = false) :
    main_exit_code outcomes true s = 1 := by
  unfold main_exit_code run_tasks_result
  simp [hsteps, hremove]

/-- C8 witness: the amended claim at a concrete one-step run whose cleanup
fails. -/
theorem claim_C8_cleanup_failure_fatal_witness :
    ([((true : Bool), (false : Bool))].all (fun o => o.1) = true) ∧
    ([((true : Bool), (false : Bool))].all (fun o => o.2) = false) ∧
    main_exit_code [(true, false)] true false = 1 :=
  ⟨by decide, by decide,
    claim_C8_cleanup_failure_fatal [(true, false)] false (by decide) (by decide)⟩

/-- C7 counterexample: with two inputs and numbering enabled, the document
whose rotations get_page_rotations reads is the merged intermediate (here
"out._merged_2026-10-12.pdf"), which is none of the original, pre-merge
input documents. -/
theorem claim_C7_counterexample :
    PdfTask.rotation_source_path
        ⟨["a.pdf", "b.pdf"], "out.pdf", "", "Y", "Y", 10, "Y", "Y"⟩ "2026-10-12"
      = .ok (some "out._merged_2026-10-12.pdf") ∧
    "out._merged_2026-10-12.pdf" ∉ (["a.pdf", "b.pdf"] : List String) :=
  ⟨by rfl, by decide⟩

/-- C7 amended: add_page_numbers calls get_page_rotations on its own input
document, so whenever merging occurred (more than one input) and numbering
is enabled, the per-page rotations are read from the merged intermediate,
indexed by page of that document, not from the pre-merge inputs. -/
theorem claim_C7_rotations_from_merged (t : PdfTask) (today : String)
    (hn : t.input_paths.length > 1) (hp : t.page_numbers_flag = "Y") :
    t.rotation_source_path today
      = .ok (some (get_pdf_name t.output_path "merged" today)) := by
  have hmne : get_pdf_name t.output_path "merged" today ≠ "" :=
    get_pdf_name_ne_empty _ _ _
  have hnne : get_pdf_name t.output_path "numbered" today ≠ "" :=
    get_pdf_name_ne_empty _ _ _
  by_cases hb : t.bookmarks_flag = "Y" <;>
    simp [PdfTask.rotation_source_path, PdfTask.steps, step_input_path, last_step,
      hn, hp, hb, hmne, hnne, List.find?, Except.bind, bind, pure, Except.pure]

/-- C7 witness: the amended claim at a concrete two-input task. -/
theorem claim_C7_rotations_from_merged_witness :
    (PdfTask.input_paths ⟨["a.pdf", "b.pdf"], "out.pdf", "", "Y", "Y", 10, "Y", "Y"⟩).length > 1 ∧
    (PdfTask.page_numbers_flag ⟨["a.pdf", "b.pdf"], "out.pdf", "", "Y", "Y", 10, "Y", "Y"⟩) = "Y" ∧
    PdfTask.rotation_source_path
        ⟨["a.pdf", "b.pdf"], "out.pdf", "", "Y", "Y", 10, "Y", "Y"⟩ "2026-10-12"
      = .ok (some (get_pdf_name "out.pdf" "merged" "2026-10-12")) :=
  ⟨by decide, by decide,
    claim_C7_rotations_from_merged
      ⟨["a.pdf", "b.pdf"], "out.pdf", "", "Y", "Y", 10, "Y", "Y"⟩ "2026-10-12"
      (by decide) (by decide)⟩

/-- C5 counterexample: a bare path with no pipe makes the bookmark list
comprehension raise IndexError (fields 2 and 3 are indexed
unconditionally), and an empty path raises nothing at all: the record is
silently dropped rather than rejected with InvalidInputSpec. -/
theorem claim_C5_counterexample :
    bookmarks_of (fun _ => some 0) ["a.pdf"] = .error .indexError ∧
    bookmarks_of (fun _ => some 0) ["|x|y"] = .ok [] :=
  ⟨rfl, rfl⟩

/-- C5 amended: splitting is on the literal pipe; a value with an empty
path is silently skipped (never InvalidInputSpec), a value with a non-empty
path but fewer than three fields raises IndexError when the bookmark record
is built, and a value with at least three fields yields the record made of
its first three fields with the path's looked-up offset. -/
theorem claim_C5_split_and_failure (pn : String → Option Nat) (v : String)
    (rest : List String) :
    (headField v = "" → bookmarks_of pn (v :: rest) = bookmarks_of pn rest) ∧
    (headField v ≠ "" → (splitFields v).length < 3 →
      bookmarks_of pn (v :: rest) = .error .indexError) ∧
    (∀ a name par more, splitFields v = a :: name :: par :: more →
      mk_bookmark pn v = .ok ⟨a, name, par, pn a⟩) := by
  refine ⟨fun h => ?_, fun h hlen => ?_, fun a name par more h => ?_⟩
  · simp [bookmarks_of, h]
  · have h2 : (splitFields v)[2]? = none :=
      List.getElem?_eq_none (by omega)
    have hmk : mk_bookmark pn v = .error .indexError := by
      unfold mk_bookmark
      rw [h2]
      rcases (splitFields v)[1]? with _ | _ <;> rfl
    simp [bookmarks_of, h, hmk]
  · have hhead : headField v = a := by
      unfold headField
      rw [h]
      rfl
    unfold mk_bookmark
    rw [h, hhead]
    simp

/-- C5 witness: the amended claim at the bare-path value "a.pdf". -/
theorem claim_C5_split_and_failure_witness :
    headField "a.pdf" ≠ "" ∧ (splitFields "a.pdf").length < 3 ∧
    bookmarks_of (fun _ => none) ["a.pdf"] = .error .indexError :=
  ⟨by decide, by decide,
    (claim_C5_split_and_failure (fun _ => none) "a.pdf" []).2.1 (by decide) (by decide)⟩

/-- Helper: once a title is in parent_bookmarks, the loop never registers it
again. -/
theorem no_second_registration (pn : String → Option Nat) (bs : List Bookmark) (t : String) :
    ∀ registered, t ∈ registered →
      (add_bookmarks_entries pn bs registered).countP (isParentRegFor t) = 0 := by
  induction bs with
  | nil => intro reg ht; rfl
  | cons b rest ih =>
    intro reg ht
    by_cases hpar : b.parent_bookmark_name = ""
    · by_cases hname : b.bookmark_name = "" <;>
        simp [add_bookmarks_entries, hpar, hname, List.countP_cons, isParentRegFor, ih reg ht]
    · by_cases hmem : b.parent_bookmark_name ∈ reg
      · simp [add_bookmarks_entries, hpar, hmem, List.countP_cons, isParentRegFor, ih reg ht]
      · have hne : b.parent_bookmark_name ≠ t := fun h => hmem (h ▸ ht)
        simp [add_bookmarks_entries, hpar, hmem, List.countP_cons, isParentRegFor, hne,
          ih (b.parent_bookmark_name :: reg) (List.mem_cons_of_mem _ ht)]

/-- Helper: with a title not yet registered, the loop registers it exactly
once, at the first record carrying it, with that record's looked-up page. -/
theorem registration_unique (pn : String → Option Nat) (bs : List Bookmark)
    (t : String) (bf : Bookmark) (ht : t ≠ "") :
    ∀ registered, t ∉ registered →
      bs.find? (fun b => b.parent_bookmark_name = t) = some bf →
      (add_bookmarks_entries pn bs registered).countP (isParentRegFor t) = 1 ∧
      ∀ e ∈ add_bookmarks_entries pn bs registered, isParentRegFor t e = true →
        e = OutlineEntry.parentReg t (pn bf.input_path) := by
  induction bs with
  | nil => intro reg hreg hfind; simp at hfind
  | cons b rest ih =>
    intro reg hreg hfind
    by_cases hbt : b.parent_bookmark_name = t
    · have hbf : bf = b := by
        simp only [List.find?, hbt] at hfind
        simp at hfind
        exact hfind.symm
      have hpar : b.parent_bookmark_name ≠ "" := by rw [hbt]; exact ht
      have hmem : b.parent_bookmark_name ∉ reg := by rw [hbt]; exact hreg
      have hform : add_bookmarks_entries pn (b :: rest) reg
          = OutlineEntry.parentReg t (pn b.input_path)
            :: OutlineEntry.child b.bookmark_name b.page_number t
            :: add_bookmarks_entries pn rest (t :: reg) := by
        simp only [add_bookmarks_entries]
        rw [if_pos hpar, if_neg hmem, hbt]
      have hz : (add_bookmarks_entries pn rest (t :: reg)).countP
          (isParentRegFor t) = 0 :=
        no_second_registration pn rest t (t :: reg) (List.mem_cons_self t reg)
      constructor
      · rw [hform]
        simp [List.countP_cons, isParentRegFor, hz]
      · intro e he hreg_e
        rw [hform] at he
        rcases List.mem_cons.mp he with he1 | he2
        · subst he1; rw [hbf]
        · rcases List.mem_cons.mp he2 with he3 | he4
          · subst he3; simp [isParentRegFor] at hreg_e
          · exact absurd hreg_e (by simpa using List.countP_eq_zero.mp hz e he4)
    · rw [show ((b :: rest).find? (fun x => x.parent_bookmark_name = t))
            = rest.find? (fun x => x.parent_bookmark_name = t) by
          simp only [List.find?, hbt]
          simp] at hfind
      by_cases hpar : b.parent_bookmark_name = ""
      · by_cases hname : b.bookmark_name = ""
        · have := ih reg hreg hfind
          simpa [add_bookmarks_entries, hpar, hname] using this
        · have := ih reg hreg hfind
          constructor
          · simp [add_bookmarks_entries, hpar, hname, List.countP_cons, isParentRegFor, this.1]
          · intro e he hreg_e
            rw [add_bookmarks_entries, if_neg (by simp [hpar]), if_pos hname] at he
            rcases List.mem_cons.mp he with he1 | he2
            · subst he1; simp [isParentRegFor] at hreg_e
            · exact this.2 e he2 hreg_e
      · by_cases hmem : b.parent_bookmark_name ∈ reg
        · have := ih reg hreg hfind
          constructor
          · simp [add_bookmarks_entries, hpar, hmem, List.countP_cons, isParentRegFor, this.1]
          · intro e he hreg_e
            rw [add_bookmarks_entries, if_pos hpar, if_pos hmem] at he
            rcases List.mem_cons.mp he with he1 | he2
            · subst he1; simp [isParentRegFor] at hreg_e
            · exact this.2 e he2 hreg_e
        · have hreg2 : t ∉ b.parent_bookmark_name :: reg := by
            intro h
            rcases List.mem_cons.mp h with h1 | h2
            · exact hbt h1.symm
            · exact hreg h2
          have := ih (b.parent_bookmark_name :: reg) hreg2 hfind
          constructor
          · simp [add_bookmarks_entries, hpar, hmem, List.countP_cons, isParentRegFor,
              hbt, this.1]
          · intro e he hreg_e
            rw [add_bookmarks_entries, if_pos hpar, if_neg hmem] at he
            rcases List.mem_cons.mp he with he1 | he2
            · subst he1; simp [isParentRegFor, hbt] at hreg_e
            · rcases List.mem_cons.mp he2 with he3 | he4
              · subst he3; simp [isParentRegFor] at hreg_e
              · exact this.2 e he4 hreg_e

/-- C4: for records sharing a non-empty parent title, exactly one parent
bookmark is created for that title, and its target page is the offset
looked up for the first record (in traversal order) referencing it. -/
theorem claim_C4_parent_bookmarks (pc : String → Nat) (ips : List String)
    (bs : List Bookmark) (t : String) (bf : Bookmark) (ht : t ≠ "")
    (hfind : bs.find? (fun b => b.parent_bookmark_name = t) = some bf) :
    (add_bookmarks_entries (lookup_offset pc ips) bs []).countP (isParentRegFor t) = 1 ∧
    ∀ e ∈ add_bookmarks_entries (lookup_offset pc ips) bs [], isParentRegFor t e = true →
      e = OutlineEntry.parentReg t (lookup_offset pc ips bf.input_path) :=
  registration_unique (lookup_offset pc ips) bs t bf ht [] (by simp) hfind

/-- C4 witness: two records under parent "Section1"; one parent entry, at
the offset of the first ("a.pdf"). -/
theorem claim_C4_parent_bookmarks_witness :
    ("Section1" : String) ≠ "" ∧
    ([⟨"a.pdf", "Intro", "Section1", some 0⟩,
      ⟨"c.pdf", "Details", "Section1", some 5⟩] : List Bookmark).find?
        (fun b => b.parent_bookmark_name = "Section1")
      = some ⟨"a.pdf", "Intro", "Section1", some 0⟩ ∧
    ((add_bookmarks_entries (lookup_offset (fun _ => 2) ["a.pdf", "b.pdf", "c.pdf"])
        [⟨"a.pdf", "Intro", "Section1", some 0⟩,
         ⟨"c.pdf", "Details", "Section1", some 5⟩] []).countP
      (isParentRegFor "Section1") = 1 ∧
    ∀ e ∈ add_bookmarks_entries (lookup_offset (fun _ => 2) ["a.pdf", "b.pdf", "c.pdf"])
        [⟨"a.pdf", "Intro", "Section1", some 0⟩,
         ⟨"c.pdf", "Details", "Section1", some 5⟩] [],
      isParentRegFor "Section1" e = true →
        e = OutlineEntry.parentReg "Section1"
              (lookup_offset (fun _ => 2) ["a.pdf", "b.pdf", "c.pdf"] "a.pdf")) :=
  ⟨by decide, by decide,
    claim_C4_parent_bookmarks (fun _ => 2) ["a.pdf", "b.pdf", "c.pdf"]
      [⟨"a.pdf", "Intro", "Section1", some 0⟩,
       ⟨"c.pdf", "Details", "Section1", some 5⟩]
      "Section1" ⟨"a.pdf", "Intro", "Section1", some 0⟩ (by decide) (by decide)⟩

/-- C9: every record with a non-empty parent title emits a child entry even
when its own bookmark title is empty, and the no-entry filter on an empty
bookmark title applies only when the parent title is empty too. -/
theorem claim_C9_children_under_parent (pn : String → Option Nat) (bs : List Bookmark)
    (registered : List String) :
    (∀ b ∈ bs, b.parent_bookmark_name ≠ "" →
      OutlineEntry.child b.bookmark_name b.page_number b.parent_bookmark_name
        ∈ add_bookmarks_entries pn bs registered) ∧
    (∀ (b : Bookmark) (rest : List Bookmark), b.parent_bookmark_name = "" →
      b.bookmark_name = "" →
      add_bookmarks_entries pn (b :: rest) registered
        = add_bookmarks_entries pn rest registered) := by
  constructor
  · induction bs generalizing registered with
    | nil => intro b hb; simp at hb
    | cons c rest ih =>
      intro b hb hbp
      rcases List.mem_cons.mp hb with hb1 | hb2
      · subst hb1
        by_cases hmem : b.parent_bookmark_name ∈ registered <;>
          simp [add_bookmarks_entries, hbp, hmem]
      · by_cases hcp : c.parent_bookmark_name = ""
        · by_cases hcn : c.bookmark_name = ""
          · have hform : add_bookmarks_entries pn (c :: rest) registered
                = add_bookmarks_entries pn rest registered := by
              simp [add_bookmarks_entries, hcp, hcn]
            rw [hform]
            exact ih registered b hb2 hbp
          · have hform : add_bookmarks_entries pn (c :: rest) registered
                = OutlineEntry.top c.bookmark_name c.page_number
                  :: add_bookmarks_entries pn rest registered := by
              simp [add_bookmarks_entries, hcp, hcn]
            rw [hform]
            exact List.mem_cons_of_mem _ (ih registered b hb2 hbp)
        · by_cases hmem : c.parent_bookmark_name ∈ registered
          · have hform : add_bookmarks_entries pn (c :: rest) registered
                = OutlineEntry.child c.bookmark_name c.page_number c.parent_bookmark_name
                  :: add_bookmarks_entries pn rest registered := by
              simp [add_bookmarks_entries, hcp, hmem]
            rw [hform]
            exact List.mem_cons_of_mem _ (ih registered b hb2 hbp)
          · have hform : add_bookmarks_entries pn (c :: rest) registered
                = OutlineEntry.parentReg c.parent_bookmark_name (pn c.input_path)
                  :: OutlineEntry.child c.bookmark_name c.page_number c.parent_bookmark_name
                  :: add_bookmarks_entries pn rest (c.parent_bookmark_name :: registered) := by
              simp [add_bookmarks_entries, hcp, hmem]
            rw [hform]
            exact List.mem_cons_of_mem _ (List.mem_cons_of_mem _
              (ih (c.parent_bookmark_name :: registered) b hb2 hbp))
  · intro b rest hp hn
    simp [add_bookmarks_entries, hp, hn]

/-- C9 witness: a record with empty bookmark title under parent "Section1"
emits a child entry with an empty title. -/
theorem claim_C9_children_under_parent_witness :
    ((⟨"b.pdf", "", "Section1", some 2⟩ : Bookmark)
        ∈ ([⟨"b.pdf", "", "Section1", some 2⟩] : List Bookmark)) ∧
    (Bookmark.parent_bookmark_name ⟨"b.pdf", "", "Section1", some 2⟩ ≠ "") ∧
    OutlineEntry.child "" (some 2) "Section1"
      ∈ add_bookmarks_entries (fun _ => some 0) [⟨"b.pdf", "", "Section1", some 2⟩] [] :=
  ⟨by decide, by decide,
    (claim_C9_children_under_parent (fun _ => some 0)
        [⟨"b.pdf", "", "Section1", some 2⟩] []).1
      ⟨"b.pdf", "", "Section1", some 2⟩ (by decide) (by decide)⟩

end PdfPager
